import Mathlib

/-!
Verification development for the vm-operator repository.

The definitions below are a shallow embedding of the Go source:

* `controllers/virtualmachine/virtualmachine_controller.go` — the
  VirtualMachine reconciler (`Reconcile`, `ReconcileNormal`,
  `ReconcileDelete`, `createOrUpdateVM`, the dependency resolvers and
  `requeueDelay`).
* the VirtualMachineService controller — `updateEndpoints`, `runProbe`
  and `findPort` (namespace `VMSvc` below).

Outcomes of calls to the cluster store (client `Get`/`List`) and to the
provider driver, which are external I/O in Go, are inputs collected in an
environment structure (`Env` resp. `SvcEnv`).  The calls a reconcile makes
to the provider driver are recorded in an explicit trace (`PCall`), so
that statements such as "the provider Create is never invoked" become
facts about the trace.
-/

namespace VMOp

/-- Status phase of a VirtualMachine (`VirtualMachineStatus.Phase`).
`unset` is the empty string. -/
inductive Phase
  | unset
  | creating
  | created
  | deleting
  | deleted
  deriving DecidableEq

/-- Power state of a VirtualMachine. -/
inductive PowerState
  | poweredOff
  | poweredOn
  deriving DecidableEq

/-- A status condition value, as written by `conditions.MarkTrue` /
`conditions.MarkFalse` for the PrereqReady condition. -/
structure Cond where
  status : Bool
  reason : String
  deriving DecidableEq

/-- An OwnerReference (only the fields the controller reads). -/
structure OwnerRef where
  kind : String
  name : String
  deriving DecidableEq

/-- A VirtualMachineClass: only the instance-storage volume declarations
are read by the reconciler (`vmClass.Spec.Hardware.InstanceStorage`).
Volumes are kept as their size strings. -/
structure VMClass where
  name : String
  instanceStorageVolumes : List String
  deriving DecidableEq

/-- A VirtualMachineImage with its owner references. -/
structure VMImage where
  name : String
  ownerRefs : List OwnerRef
  deriving DecidableEq

/-- A ContentLibraryProvider: its UUID and owner references. -/
structure CLProvider where
  name : String
  uuid : String
  ownerRefs : List OwnerRef
  deriving DecidableEq

/-- A ContentSource (only its name is compared). -/
structure ContentSource where
  name : String
  deriving DecidableEq

/-- A binding join resource: the kind and name of the referenced object
(`ClassRef` of a VirtualMachineClassBinding, `ContentSourceRef` of a
ContentSourceBinding). -/
structure Binding where
  kind : String
  name : String
  deriving DecidableEq

/-- `spec.vmMetadata` of a VirtualMachine. -/
structure VMMeta where
  configMapName : String
  secretName : String
  transport : String
  deriving DecidableEq

/-- A VirtualMachine volume; `isInstance` marks instance-storage PVC
volumes (`PersistentVolumeClaim.InstanceVolumeClaim` set). -/
structure Volume where
  name : String
  isInstance : Bool
  deriving DecidableEq

/-- A VirtualMachineSetResourcePolicy: name and deletion timestamp. -/
structure ResourcePolicy where
  name : String
  deletionTimestamp : Option Nat
  deriving DecidableEq

/-- The VirtualMachine spec fields read by the reconciler. -/
structure VMSpec where
  className : String
  imageName : String
  vmMetadata : Option VMMeta
  resourcePolicyName : String
  storageClass : String
  volumes : List Volume
  powerState : PowerState
  deriving DecidableEq

/-- The VirtualMachine status fields read or written by the reconciler. -/
structure VMStatus where
  phase : Phase
  vmIp : String
  powerState : PowerState
  host : String
  deriving DecidableEq

/-- A VirtualMachine object.  `deletionTimestamp = none` models a zero
timestamp; `prereqReady` is the PrereqReady entry of the status
conditions list. -/
structure VM where
  finalizers : List String
  deletionTimestamp : Option Nat
  annotations : List String
  spec : VMSpec
  status : VMStatus
  prereqReady : Option Cond
  deriving DecidableEq

/-- `finalizerName` of the VirtualMachine controller. -/
def finalizerName : String := "virtualmachine.vmoperator.vmware.com"

/-- The pause-reconcile annotation key. -/
def pauseAnnotation : String := "vmoperator.vmware.com/pause-reconcile"

/-- `constants.InstanceStoragePVCsBoundAnnotationKey`. -/
def pvcsBoundAnnotation : String := "vmoperator.vmware.com/instance-storage-pvcs-bound"

/-- `controllerutil.ContainsFinalizer`. -/
def hasFinalizer (vm : VM) : Bool :=
  vm.finalizers.contains finalizerName

/-- `controllerutil.AddFinalizer` (appends). -/
def addFinalizer (vm : VM) : VM :=
  { vm with finalizers := vm.finalizers ++ [finalizerName] }

/-- `controllerutil.RemoveFinalizer` (filters out the finalizer). -/
def removeFinalizer (vm : VM) : VM :=
  { vm with finalizers := vm.finalizers.filter (fun s => s != finalizerName) }

/-- Set `vm.Status.Phase`. -/
def setPhase (vm : VM) (p : Phase) : VM :=
  { vm with status := { vm.status with phase := p } }

/-- `conditions.MarkFalse` on the PrereqReady condition. -/
def markFalse (reason : String) (vm : VM) : VM :=
  { vm with prereqReady := some { status := false, reason := reason } }

/-- `conditions.MarkTrue` on the PrereqReady condition. -/
def markTrue (vm : VM) : VM :=
  { vm with prereqReady := some { status := true, reason := "" } }

/-- Errors surfaced by the reconciler or the store/provider. -/
inductive Err
  | notFound (what : String)
  | getFailed (what : String)
  | classBindingMissing
  | csBindingMissing
  | noCLProviderOwner
  | noContentSourceOwner
  | metadataBothSet
  | rpNotReady
  | rpDeleting
  | providerErr (s : String)
  deriving DecidableEq

/-- `apiErrors.IsNotFound`. -/
def isNotFoundErr : Err → Bool
  | Err.notFound _ => true
  | _ => false

/-- A call made to the provider driver. -/
inductive PCall
  | doesExist
  | create
  | update
  | delete
  deriving DecidableEq

/-- The environment of one reconcile: outcomes of store reads, provider
calls and feature-flag values. -/
structure Env where
  vmServiceFSS : Bool
  instanceStorageFSS : Bool
  classes : String → Except Err VMClass
  classBindingList : Except Err (List Binding)
  images : String → Except Err VMImage
  clProviders : String → Except Err CLProvider
  contentSources : String → Except Err ContentSource
  csBindingList : Except Err (List Binding)
  configMaps : String → Except Err (List (String × String))
  secrets : String → Except Err (List (String × String))
  storageClasses : String → Except Err String
  resourcePolicies : String → Except Err ResourcePolicy
  rpReady : Except Err Bool
  vmExists : Except Err Bool
  createRes : Option Err
  updateRes : Option Err
  deleteRes : Option Err

/-- `getVMClass` (virtualmachine_controller.go:495-545): fetch the class
by name; with the VM-service FSS enabled, require a
VirtualMachineClassBinding in the VM namespace whose ClassRef matches.
Failures mark the PrereqReady condition false. -/
def getVMClass (env : Env) (vm : VM) : VM × Except Err VMClass :=
  match env.classes vm.spec.className with
  | Except.error e => (markFalse "VirtualMachineClassNotFound" vm, Except.error e)
  | Except.ok cls =>
    if env.vmServiceFSS then
      match env.classBindingList with
      | Except.error e =>
        (markFalse "VirtualMachineClassBindingNotFound" vm, Except.error e)
      | Except.ok l =>
        if l.any (fun b => b.kind == "VirtualMachineClass" && b.name == vm.spec.className) then
          (vm, Except.ok cls)
        else
          (markFalse "VirtualMachineClassBindingNotFound" vm,
            Except.error Err.classBindingMissing)
    else
      (vm, Except.ok cls)

/-- `getContentLibraryProviderFromImage` (lines 390-404): look up the
first OwnerReference of kind ContentLibraryProvider and fetch it; error
when the image has none. -/
def getContentLibraryProviderFromImage (env : Env) (img : VMImage) :
    Except Err CLProvider :=
  match img.ownerRefs.find? (fun r => r.kind == "ContentLibraryProvider") with
  | some r => env.clProviders r.name
  | none => Except.error Err.noCLProviderOwner

/-- `getContentSourceFromCLProvider` (lines 406-420). -/
def getContentSourceFromCLProvider (env : Env) (clp : CLProvider) :
    Except Err ContentSource :=
  match clp.ownerRefs.find? (fun r => r.kind == "ContentSource") with
  | some r => env.contentSources r.name
  | none => Except.error Err.noContentSourceOwner

/-- `getImageAndContentLibraryUUID` (lines 426-491): fetch the image,
walk to the ContentLibraryProvider; with VM-service FSS enabled, also
walk to the ContentSource and require an in-namespace
ContentSourceBinding referencing it. -/
def getImageAndContentLibraryUUID (env : Env) (vm : VM) :
    VM × Except Err (VMImage × String) :=
  match env.images vm.spec.imageName with
  | Except.error e => (markFalse "VirtualMachineImageNotFound" vm, Except.error e)
  | Except.ok img =>
    match getContentLibraryProviderFromImage env img with
    | Except.error e => (vm, Except.error e)
    | Except.ok clp =>
      if env.vmServiceFSS then
        match getContentSourceFromCLProvider env clp with
        | Except.error e => (vm, Except.error e)
        | Except.ok cs =>
          match env.csBindingList with
          | Except.error e =>
            (markFalse "ContentSourceBindingNotFound" vm, Except.error e)
          | Except.ok l =>
            if l.any (fun b => b.kind == "ContentSource" && b.name == cs.name) then
              (vm, Except.ok (img, clp.uuid))
            else
              (markFalse "ContentSourceBindingNotFound" vm,
                Except.error Err.csBindingMissing)
      else
        (vm, Except.ok (img, clp.uuid))

/-- The resolved `vmprovider.VMMetadata`. -/
structure VMMetadataOut where
  data : List (String × String)
  transport : String
  deriving DecidableEq

/-- `getVMMetadata` (lines 547-586): config-map and secret sources are
mutually exclusive; the one that is named is fetched in the VM
namespace. -/
def getVMMetadata (env : Env) (vm : VM) : Except Err VMMetadataOut :=
  match vm.spec.vmMetadata with
  | none => Except.ok { data := [], transport := "" }
  | some m =>
    if m.configMapName != "" && m.secretName != "" then
      Except.error Err.metadataBothSet
    else
      let fromCM : Except Err (List (String × String)) :=
        if m.configMapName != "" then env.configMaps m.configMapName
        else Except.ok []
      match fromCM with
      | Except.error e => Except.error e
      | Except.ok d1 =>
        let fromSec : Except Err (List (String × String)) :=
          if m.secretName != "" then env.secrets m.secretName
          else Except.ok d1
        match fromSec with
        | Except.error e => Except.error e
        | Except.ok d2 => Except.ok { data := d2, transport := m.transport }

/-- `getResourcePolicy` (lines 588-613): optional; fetch the named
policy and require provider readiness. -/
def getResourcePolicy (env : Env) (vm : VM) :
    Except Err (Option ResourcePolicy) :=
  if vm.spec.resourcePolicyName = "" then Except.ok none
  else
    match env.resourcePolicies vm.spec.resourcePolicyName with
    | Except.error e => Except.error e
    | Except.ok rp =>
      match env.rpReady with
      | Except.error e => Except.error e
      | Except.ok ready =>
        if ready then Except.ok (some rp) else Except.error Err.rpNotReady

/-- `getStoragePolicyID` (lines 375-388). -/
def getStoragePolicyID (env : Env) (vm : VM) : Except Err String :=
  if vm.spec.storageClass = "" then Except.ok ""
  else env.storageClasses vm.spec.storageClass

/-- `instancestorage.IsConfigured`: the VM spec already carries
instance-storage volumes. -/
def isConfigured (vm : VM) : Bool :=
  vm.spec.volumes.any (fun v => v.isInstance)

/-- `addInstanceStorageSpec` (lines 783-815): append one instance PVC
volume per class instance-storage volume (the generated UUID name is
abstracted by the volume size string). -/
def addInstanceStorageSpec (vm : VM) (vols : List String) : VM :=
  { vm with spec := { vm.spec with
      volumes := vm.spec.volumes ++
        vols.map (fun sz => { name := "instance-pvc-" ++ sz, isInstance := true }) } }

/-- `reconcileInstanceStorageSpec` (lines 746-780). -/
def reconcileInstanceStorageSpec (env : Env) (vm : VM) (cls : VMClass) : VM :=
  if !env.instanceStorageFSS then vm
  else if vm.status.phase = Phase.created then vm
  else if isConfigured vm then vm
  else if cls.instanceStorageVolumes.isEmpty then vm
  else addInstanceStorageSpec vm cls.instanceStorageVolumes

/-- `findInstanceStorageVMPlacementStatus` (lines 615-633). -/
def findInstanceStorageVMPlacementStatus (vm : VM) : Bool :=
  if !isConfigured vm then true
  else vm.annotations.contains pvcsBoundAnnotation

/-- The dependency-resolution prefix of `createOrUpdateVM`
(lines 637-668): class, instance-storage spec, image, metadata, resource
policy, storage policy, then MarkTrue on PrereqReady. -/
def resolvePrereqs (env : Env) (vm : VM) : VM × Except Err (Option ResourcePolicy) :=
  match getVMClass env vm with
  | (vm1, Except.error e) => (vm1, Except.error e)
  | (vm1, Except.ok cls) =>
    match getImageAndContentLibraryUUID env (reconcileInstanceStorageSpec env vm1 cls) with
    | (vm3, Except.error e) => (vm3, Except.error e)
    | (vm3, Except.ok _) =>
      match getVMMetadata env vm3 with
      | Except.error e => (vm3, Except.error e)
      | Except.ok _ =>
        match getResourcePolicy env vm3 with
        | Except.error e => (vm3, Except.error e)
        | Except.ok rp =>
          match getStoragePolicyID env vm3 with
          | Except.error e => (vm3, Except.error e)
          | Except.ok _ => (markTrue vm3, Except.ok rp)

/-- Result of `createOrUpdateVM`: final VM, error, trace of provider
calls, the in-flight create count after return (the deferred decrement
included), and whether a create slot was taken during the call. -/
structure COUResult where
  vm : VM
  err : Option Err
  calls : List PCall
  n : Nat
  acquired : Bool
  deriving DecidableEq

/-- The tail of `createOrUpdateVM` (lines 727-743): instance-storage
placement gate, mark phase Created, provider Update. -/
def couTail (env : Env) (vm : VM) (calls : List PCall) (n : Nat) (acq : Bool) :
    COUResult :=
  if env.instanceStorageFSS && !findInstanceStorageVMPlacementStatus vm then
    { vm := vm, err := none, calls := calls, n := n, acquired := acq }
  else
    match env.updateRes with
    | some e =>
      { vm := setPhase vm Phase.created, err := some e, calls := calls ++ [PCall.update],
        n := n, acquired := acq }
    | none =>
      { vm := setPhase vm Phase.created, err := none, calls := calls ++ [PCall.update],
        n := n, acquired := acq }

/-- The provider-create step of `createOrUpdateVM` (lines 719-725),
entered after a create slot has been acquired. -/
def doCreate (env : Env) (vm : VM) (n : Nat) : COUResult :=
  match env.createRes with
  | some e =>
    { vm := vm, err := some e, calls := [PCall.doesExist, PCall.create], n := n,
      acquired := true }
  | none => couTail env vm [PCall.doesExist, PCall.create] n true

/-- `createOrUpdateVM` (lines 636-743).  `n` is
`NumVMsBeingCreatedOnProvider` at entry, `maxC` is
`MaxConcurrentCreateVMsOnProvider`.  The deferred decrement means the
count after return equals `n` on every path; `acquired` records whether
the increment happened. -/
def createOrUpdateVM (env : Env) (vm : VM) (n maxC : Nat) : COUResult :=
  match resolvePrereqs env vm with
  | (vm1, Except.error e) =>
    { vm := vm1, err := some e, calls := [], n := n, acquired := false }
  | (vm1, Except.ok rp) =>
    match env.vmExists with
    | Except.error e =>
      { vm := vm1, err := some e, calls := [PCall.doesExist], n := n, acquired := false }
    | Except.ok true => couTail env vm1 [PCall.doesExist] n false
    | Except.ok false =>
      if maxC ≤ n then
        { vm := setPhase vm1 Phase.creating, err := none, calls := [PCall.doesExist],
          n := n, acquired := false }
      else
        match rp with
        | some p =>
          if p.deletionTimestamp.isSome then
            { vm := setPhase vm1 Phase.creating, err := some Err.rpDeleting,
              calls := [PCall.doesExist], n := n, acquired := true }
          else doCreate env (setPhase vm1 Phase.creating) n
        | none => doCreate env (setPhase vm1 Phase.creating) n

/-- Result of `ReconcileNormal`. -/
structure RNResult where
  vm : VM
  err : Option Err
  calls : List PCall
  n : Nat
  proberAdded : Bool
  deriving DecidableEq

/-- `ReconcileNormal` (lines 336-373): add the finalizer and return if it
is absent; otherwise run `createOrUpdateVM` and, on success, register the
VM with the prober manager. -/
def reconcileNormal (env : Env) (vm : VM) (n maxC : Nat) : RNResult :=
  if !hasFinalizer vm then
    { vm := addFinalizer vm, err := none, calls := [], n := n, proberAdded := false }
  else
    match createOrUpdateVM env vm n maxC with
    | ⟨vm1, some e, calls, n1, _⟩ =>
      { vm := vm1, err := some e, calls := calls, n := n1, proberAdded := false }
    | ⟨vm1, none, calls, n1, _⟩ =>
      { vm := vm1, err := none, calls := calls, n := n1, proberAdded := true }

/-- `deleteVM` (lines 289-306): provider delete with NotFound treated as
success. -/
def deleteVM (env : Env) : Option Err :=
  match env.deleteRes with
  | some e => if isNotFoundErr e then none else some e
  | none => none

/-- Result of `ReconcileDelete`. -/
structure RDResult where
  vm : VM
  err : Option Err
  calls : List PCall
  proberRemoved : Bool
  deriving DecidableEq

/-- `ReconcileDelete` (lines 308-333): with the finalizer present, mark
phase Deleting, run the provider delete, and on success mark Deleted and
remove the finalizer; the prober-manager removal only happens when no
error is returned. -/
def reconcileDelete (env : Env) (vm : VM) : RDResult :=
  if hasFinalizer vm then
    match deleteVM env with
    | some e =>
      { vm := setPhase vm Phase.deleting, err := some e, calls := [PCall.delete],
        proberRemoved := false }
    | none =>
      { vm := removeFinalizer (setPhase (setPhase vm Phase.deleting) Phase.deleted),
        err := none, calls := [PCall.delete], proberRemoved := true }
  else
    { vm := vm, err := none, calls := [], proberRemoved := true }

/-- `requeueDelay` (lines 275-287), in seconds. -/
def requeueDelay (vm : VM) : Nat :=
  if vm.status.phase = Phase.creating then 10
  else if vm.status.vmIp = "" ∧ vm.status.powerState = PowerState.poweredOn then 10
  else 0

/-- Result of the top-level `Reconcile`. -/
structure RecResult where
  vm : VM
  err : Option Err
  calls : List PCall
  requeueAfter : Nat
  n : Nat
  deriving DecidableEq

/-- `Reconcile` (lines 220-266): pause annotation short-circuits; a
non-zero deletion timestamp dispatches to `ReconcileDelete`; otherwise
`ReconcileNormal` runs and, on success, the requeue delay is computed. -/
def reconcile (env : Env) (vm : VM) (n maxC : Nat) : RecResult :=
  if vm.annotations.contains pauseAnnotation then
    { vm := vm, err := none, calls := [], requeueAfter := 0, n := n }
  else
    match vm.deletionTimestamp with
    | some _ =>
      match reconcileDelete env vm with
      | ⟨vm1, e, calls, _⟩ =>
        { vm := vm1, err := e, calls := calls, requeueAfter := 0, n := n }
    | none =>
      match reconcileNormal env vm n maxC with
      | ⟨vm1, some e, calls, n1, _⟩ =>
        { vm := vm1, err := some e, calls := calls, requeueAfter := 0, n := n1 }
      | ⟨vm1, none, calls, n1, _⟩ =>
        { vm := vm1, err := none, calls := calls, requeueAfter := requeueDelay vm1,
          n := n1 }

end VMOp

namespace VMSvc

/-- Store/client errors of the VirtualMachineService controller. -/
inductive SvcErr
  | notFound
  | forbidden
  | other (s : String)
  deriving DecidableEq

/-- A VirtualMachine spec port (`vm.Spec.Ports` entry). -/
structure VMPort where
  name : String
  protocol : String
  port : Int
  deriving DecidableEq

/-- An `intstr.IntOrString` port reference. -/
inductive PortRef
  | byName (s : String)
  | byNum (n : Int)
  deriving DecidableEq

/-- A TCP-socket readiness probe.  `dialOk` is the oracle outcome of the
`net.DialTimeout` call, which is external network I/O in Go. -/
structure TCPProbe where
  port : PortRef
  host : String
  timeoutSeconds : Int
  dialOk : Bool
  deriving DecidableEq

/-- A readiness probe (`vmoperatorv1alpha1.Probe`); only a TCPSocket
action is supported. -/
structure Probe where
  tcpSocket : Option TCPProbe
  deriving DecidableEq

/-- A VirtualMachine as seen by the endpoints loop.  `deleted` models
`DeletionTimestamp != nil`. -/
structure SvcVM where
  name : String
  deleted : Bool
  vmIp : String
  host : String
  ports : List VMPort
  readinessProbe : Option Probe
  deriving DecidableEq

/-- `findPort` (part_000:388-402): a named reference matches a spec port
by name and protocol; a numeric reference is its own answer. -/
def findPort (vm : SvcVM) (pr : PortRef) (proto : String) : Except String Int :=
  match pr with
  | PortRef.byName s =>
    match vm.ports.find? (fun p => p.name == s && p.protocol == proto) with
    | some p => Except.ok p.port
    | none => Except.error "no suitable port for manifest"
  | PortRef.byNum k => Except.ok k

/-- `runProbe` (part_000:674-711): no probe means success; a TCPSocket
probe resolves the port then dials; any other action is an error. -/
def runProbe (vm : SvcVM) : Option String :=
  match vm.readinessProbe with
  | none => none
  | some p =>
    match p.tcpSocket with
    | some t =>
      match findPort vm t.port "TCP" with
      | Except.error e => some e
      | Except.ok _ => if t.dialOk then none else some "dial failed"
    | none => some "unknown action specified for probe"

/-- A `corev1.ServicePort` of the translated Service. -/
structure SvcPort where
  name : String
  protocol : String
  targetPort : PortRef
  deriving DecidableEq

/-- A `corev1.EndpointSubset`: addresses (IPs) and (name, port, protocol)
triples. -/
structure EndpointSubset where
  addresses : List String
  ports : List (String × Int × String)
  deriving DecidableEq

/-- A `corev1.Endpoints` object (resource version and subsets). -/
structure Endpoints where
  resourceVersion : String
  subsets : List EndpointSubset
  deriving DecidableEq

/-- The inner service-port loop of `updateEndpoints` (part_000:577-593):
one subset appended per resolvable service port, via
`addEndpointSubset`. -/
def vmSubsets (vm : SvcVM) (svcPorts : List SvcPort) (acc : List EndpointSubset) :
    List EndpointSubset :=
  svcPorts.foldl
    (fun acc2 sp =>
      match findPort vm sp.targetPort sp.protocol with
      | Except.error _ => acc2
      | Except.ok num =>
        acc2 ++ [{ addresses := [vm.vmIp], ports := [(sp.name, num, sp.protocol)] }])
    acc

/-- One iteration of the VM loop of `updateEndpoints` (part_000:544-594):
skip deleted VMs, VMs without IP or host; a failing probe increments the
failure count; a passing VM contributes its subsets. -/
def epStep (svcPorts : List SvcPort) (acc : List EndpointSubset × Nat) (vm : SvcVM) :
    List EndpointSubset × Nat :=
  if vm.deleted then acc
  else if vm.vmIp = "" then acc
  else if vm.host = "" then acc
  else
    match runProbe vm with
    | some _ => (acc.1, acc.2 + 1)
    | none => (vmSubsets vm svcPorts acc.1, acc.2)

/-- The VM loop of `updateEndpoints`: recomputed subsets and the probe
failure count. -/
def computeSubsets (svcPorts : List SvcPort) (vms : List SvcVM) :
    List EndpointSubset × Nat :=
  vms.foldl (epStep svcPorts) ([], 0)

/-- Result of `updateEndpoints`: success, the distinguished
`RequeueAfterError` (seconds), or a plain error. -/
inductive SvcResult
  | ok
  | requeueAfter (seconds : Nat)
  | err (e : SvcErr)
  deriving DecidableEq

/-- A write performed on the Endpoints object. -/
inductive EpWrite
  | create (e : Endpoints)
  | update (e : Endpoints)
  deriving DecidableEq

/-- Environment of one endpoints reconcile: the selected VM list, the
current Endpoints object, and the outcomes of the create/update writes. -/
structure SvcEnv where
  vms : Except SvcErr (List SvcVM)
  currentEndpoints : Except SvcErr Endpoints
  createRes : Option SvcErr
  updateRes : Option SvcErr

/-- The write tail of `updateEndpoints` (part_000:621-642):
`makeEndpoints` replaces the object meta (dropping the resource version)
and the subsets; an empty current resource version means create,
otherwise update; a write error wins over the requeue signal. -/
def writeEndpoints (env : SvcEnv) (cur : Endpoints) (subsets : List EndpointSubset)
    (updateErr : SvcResult) : SvcResult × Option EpWrite :=
  let newEp : Endpoints := { resourceVersion := "", subsets := subsets }
  if cur.resourceVersion = "" then
    match env.createRes with
    | some e => (SvcResult.err e, some (EpWrite.create newEp))
    | none => (updateErr, some (EpWrite.create newEp))
  else
    match env.updateRes with
    | some e => (SvcResult.err e, some (EpWrite.update newEp))
    | none => (updateErr, some (EpWrite.update newEp))

/-- The fetch-compare-write tail of `updateEndpoints` (part_000:602-643):
fetch the current Endpoints (a fresh one on NotFound), compare the
subsets by deep equality, and write the recomputed subsets unless they
are already equal. -/
def endpointsTail (env : SvcEnv) (subsets : List EndpointSubset) (updateErr : SvcResult) :
    SvcResult × Option EpWrite :=
  match env.currentEndpoints with
  | Except.error e =>
    if e = SvcErr.notFound then
      writeEndpoints env { resourceVersion := "", subsets := [] } subsets updateErr
    else (SvcResult.err e, none)
  | Except.ok cur =>
    if cur.subsets = subsets then (updateErr, none)
    else writeEndpoints env cur subsets updateErr

/-- `updateEndpoints` (part_000:530-643): recompute the subsets from the
selected VMs; if every selected VM failed its probe, the pending result
is a 10-second RequeueAfterError; then fetch, compare and write. -/
def updateEndpoints (env : SvcEnv) (svcPorts : List SvcPort) :
    SvcResult × Option EpWrite :=
  match env.vms with
  | Except.error e => (SvcResult.err e, none)
  | Except.ok vms =>
    endpointsTail env (computeSubsets svcPorts vms).1
      (if 0 < (computeSubsets svcPorts vms).2 ∧
          (computeSubsets svcPorts vms).2 = vms.length
       then SvcResult.requeueAfter 10 else SvcResult.ok)

end VMSvc

namespace VMOp

/-- A sample image owned by a ContentLibraryProvider. -/
def img0 : VMImage :=
  { name := "img", ownerRefs := [{ kind := "ContentLibraryProvider", name := "clp" }] }

/-- A sample ContentLibraryProvider owned by a ContentSource. -/
def clp0 : CLProvider :=
  { name := "clp", uuid := "uuid-1", ownerRefs := [{ kind := "ContentSource", name := "cs" }] }

/-- A sample ContentLibraryProvider with no owner references. -/
def clpNoCS : CLProvider := { name := "clp", uuid := "uuid-1", ownerRefs := [] }

/-- A sample VM: finalizer present, not being deleted, trivial spec. -/
def baseVM : VM :=
  { finalizers := [finalizerName], deletionTimestamp := none, annotations := [],
    spec := { className := "cls", imageName := "img", vmMetadata := none,
              resourcePolicyName := "", storageClass := "", volumes := [],
              powerState := PowerState.poweredOff },
    status := { phase := Phase.unset, vmIp := "", powerState := PowerState.poweredOff,
                host := "" },
    prereqReady := none }

/-- A sample environment in which every dependency of `baseVM` resolves,
the provider reports the VM as existing and all provider calls succeed. -/
def baseEnv : Env :=
  { vmServiceFSS := false, instanceStorageFSS := false,
    classes := fun s =>
      if s = "cls" then Except.ok { name := "cls", instanceStorageVolumes := [] }
      else Except.error (Err.notFound s),
    classBindingList := Except.ok [],
    images := fun s => if s = "img" then Except.ok img0 else Except.error (Err.notFound s),
    clProviders := fun s => if s = "clp" then Except.ok clp0 else Except.error (Err.notFound s),
    contentSources := fun s =>
      if s = "cs" then Except.ok { name := "cs" } else Except.error (Err.notFound s),
    csBindingList := Except.ok [],
    configMaps := fun s => Except.error (Err.getFailed s),
    secrets := fun s => Except.error (Err.getFailed s),
    storageClasses := fun s => Except.error (Err.getFailed s),
    resourcePolicies := fun s => Except.error (Err.getFailed s),
    rpReady := Except.ok true,
    vmExists := Except.ok true,
    createRes := none, updateRes := none, deleteRes := none }

/-- `baseVM` without the finalizer (a freshly created object). -/
def vmNoFin : VM := { baseVM with finalizers := [] }

/-- `baseVM` with a non-zero deletion timestamp. -/
def vmDel : VM := { baseVM with deletionTimestamp := some 5 }

/-- `baseEnv` with the provider reporting the VM absent. -/
def envAbsent : Env := { baseEnv with vmExists := Except.ok false }

/-- `baseEnv` with class-binding enforcement on and no bindings. -/
def envNoBinding : Env :=
  { baseEnv with vmServiceFSS := true, classBindingList := Except.ok [] }

/-- `baseVM` with both metadata sources set. -/
def vmBothMeta : VM :=
  { baseVM with spec := { baseVM.spec with
      vmMetadata := some { configMapName := "cm", secretName := "sec", transport := "t" } } }

/-- `baseEnv` with the ContentLibraryProvider lacking a ContentSource
owner reference. -/
def envNoCSOwner : Env :=
  { baseEnv with
    clProviders := fun s =>
      if s = "clp" then Except.ok clpNoCS else Except.error (Err.notFound s) }

/-- `envNoCSOwner` with VM-service binding enforcement enabled. -/
def envNoCSOwnerFSS : Env := { envNoCSOwner with vmServiceFSS := true }

/-- A resource policy being deleted. -/
def rpDeleting0 : ResourcePolicy := { name := "rp1", deletionTimestamp := some 3 }

/-- `baseVM` referencing resource policy rp1. -/
def vmWithRP : VM :=
  { baseVM with spec := { baseVM.spec with resourcePolicyName := "rp1" } }

/-- `envAbsent` with rp1 resolvable, ready, and being deleted. -/
def envRPDeleting : Env :=
  { envAbsent with
    resourcePolicies := fun s =>
      if s = "rp1" then Except.ok rpDeleting0 else Except.error (Err.getFailed s) }

/-- Position of a phase in the documented lifecycle order. -/
def phaseIdx : Phase → Nat
  | Phase.unset => 0
  | Phase.creating => 1
  | Phase.created => 2
  | Phase.deleting => 3
  | Phase.deleted => 4

/-- The VM fields the dependency resolvers never change (everything
except the PrereqReady condition and the spec volumes). -/
def coreEq (a b : VM) : Prop :=
  a.status = b.status ∧ a.finalizers = b.finalizers ∧
  a.deletionTimestamp = b.deletionTimestamp ∧ a.annotations = b.annotations ∧
  a.spec.vmMetadata = b.spec.vmMetadata ∧
  a.spec.resourcePolicyName = b.spec.resourcePolicyName

end VMOp

namespace VMSvc

/-- A sample service port. -/
def portsC9 : List SvcPort :=
  [{ name := "http", protocol := "TCP", targetPort := PortRef.byNum 80 }]

/-- A TCP probe on port 80 whose dial oracle is false. -/
def failingProbe : Probe :=
  { tcpSocket := some
      { port := PortRef.byNum 80, host := "", timeoutSeconds := 0, dialOk := false } }

/-- A selected VM with IP and host whose TCP probe fails (the dial
oracle is false). -/
def vmProbeFail : SvcVM :=
  { name := "vm1", deleted := false, vmIp := "1.2.3.4", host := "host1", ports := [],
    readinessProbe := some failingProbe }

/-- An existing Endpoints object with one populated subset. -/
def curC9 : Endpoints :=
  { resourceVersion := "v1",
    subsets := [{ addresses := ["9.9.9.9"], ports := [("http", 80, "TCP")] }] }

/-- Environment for the all-probes-fail scenario: one selected VM whose
probe fails, an existing non-empty Endpoints object, writes succeed. -/
def envC9 : SvcEnv :=
  { vms := Except.ok [vmProbeFail], currentEndpoints := Except.ok curC9,
    createRes := none, updateRes := none }

end VMSvc

namespace VMOp

theorem coreEq_refl (a : VM) : coreEq a a := ⟨rfl, rfl, rfl, rfl, rfl, rfl⟩

theorem coreEq_trans {a b c : VM} (h1 : coreEq a b) (h2 : coreEq b c) : coreEq a c := by
  obtain ⟨x1, x2, x3, x4, x5, x6⟩ := h1
  obtain ⟨y1, y2, y3, y4, y5, y6⟩ := h2
  exact ⟨x1.trans y1, x2.trans y2, x3.trans y3, x4.trans y4, x5.trans y5, x6.trans y6⟩

theorem coreEq_markFalse (r : String) (vm : VM) : coreEq (markFalse r vm) vm :=
  ⟨rfl, rfl, rfl, rfl, rfl, rfl⟩

theorem coreEq_markTrue (vm : VM) : coreEq (markTrue vm) vm :=
  ⟨rfl, rfl, rfl, rfl, rfl, rfl⟩

theorem coreEq_riss (env : Env) (vm : VM) (c : VMClass) :
    coreEq (reconcileInstanceStorageSpec env vm c) vm := by
  unfold reconcileInstanceStorageSpec addInstanceStorageSpec
  repeat' split
  all_goals exact ⟨rfl, rfl, rfl, rfl, rfl, rfl⟩

theorem coreEq_getVMClass (env : Env) (vm : VM) : coreEq (getVMClass env vm).1 vm := by
  unfold getVMClass
  repeat' split
  all_goals first
    | exact coreEq_markFalse _ _
    | exact coreEq_refl _

theorem coreEq_getImage (env : Env) (vm : VM) :
    coreEq (getImageAndContentLibraryUUID env vm).1 vm := by
  unfold getImageAndContentLibraryUUID
  repeat' split
  all_goals first
    | exact coreEq_markFalse _ _
    | exact coreEq_refl _

end VMOp

namespace VMOp

theorem coreEq_resolvePrereqs (env : Env) (vm : VM) :
    coreEq (resolvePrereqs env vm).1 vm := by
  unfold resolvePrereqs
  split
  · next vm1 e heq =>
    have h := coreEq_getVMClass env vm
    rw [heq] at h
    exact h
  · next vm1 cls heq =>
    have h1 : coreEq vm1 vm := by
      have h := coreEq_getVMClass env vm
      rw [heq] at h
      exact h
    have h2 : coreEq (reconcileInstanceStorageSpec env vm1 cls) vm :=
      coreEq_trans (coreEq_riss env vm1 cls) h1
    split
    · next vm3 e heq2 =>
      have h3 := coreEq_getImage env (reconcileInstanceStorageSpec env vm1 cls)
      rw [heq2] at h3
      exact coreEq_trans h3 h2
    · next vm3 x heq2 =>
      have h3 : coreEq vm3 vm := by
        have h4 := coreEq_getImage env (reconcileInstanceStorageSpec env vm1 cls)
        rw [heq2] at h4
        exact coreEq_trans h4 h2
      split
      · exact h3
      · split
        · exact h3
        · split
          · exact h3
          · exact coreEq_trans (coreEq_markTrue vm3) h3

theorem getResourcePolicy_markTrue (env : Env) (vm : VM) :
    getResourcePolicy env (markTrue vm) = getResourcePolicy env vm := rfl

theorem resolvePrereqs_ok_rp (env : Env) (vm vm1 : VM) (rp : Option ResourcePolicy)
    (h : resolvePrereqs env vm = (vm1, Except.ok rp)) :
    getResourcePolicy env vm1 = Except.ok rp := by
  unfold resolvePrereqs at h
  split at h
  · simp at h
  · split at h
    · simp at h
    · split at h
      · simp at h
      · split at h
        · simp at h
        · next rp0 heq3 =>
          split at h
          · simp at h
          · simp only [Prod.mk.injEq, Except.ok.injEq] at h
            obtain ⟨hvm, hrp⟩ := h
            subst hvm
            subst hrp
            rw [getResourcePolicy_markTrue]
            exact heq3

theorem hasFinalizer_addFinalizer (vm : VM) : hasFinalizer (addFinalizer vm) = true := by
  simp [hasFinalizer, addFinalizer]

theorem hasFinalizer_removeFinalizer (vm : VM) :
    hasFinalizer (removeFinalizer vm) = false := by
  simp [hasFinalizer, removeFinalizer]

theorem setPhase_phase (vm : VM) (p : Phase) : (setPhase vm p).status.phase = p := rfl

theorem setPhase_finalizers (vm : VM) (p : Phase) :
    (setPhase vm p).finalizers = vm.finalizers := rfl

theorem rd_calls (env : Env) (vm : VM) :
    (reconcileDelete env vm).calls = [] ∨ (reconcileDelete env vm).calls = [PCall.delete] := by
  unfold reconcileDelete
  repeat' split
  all_goals simp

theorem create_needs_finalizer (env : Env) (vm : VM) (n maxC : Nat)
    (h : PCall.create ∈ (reconcile env vm n maxC).calls) : hasFinalizer vm = true := by
  unfold reconcile at h
  split at h
  · simp at h
  · split at h
    · next t heq =>
      split at h
      · next vm1 e calls pr heqd =>
        rcases rd_calls env vm with hc | hc <;> rw [heqd] at hc <;> simp at hc <;>
          rw [hc] at h <;> simp at h
    · split at h
      · next vm1 e calls n1 x heqn =>
        unfold reconcileNormal at heqn
        split at heqn
        · simp only [RNResult.mk.injEq] at heqn
          obtain ⟨-, -, hcalls, -, -⟩ := heqn
          rw [← hcalls] at h
          simp at h
        · next hfin =>
          simp only [Bool.not_eq_true'] at hfin
          simpa using hfin
      · next vm1 calls n1 x heqn =>
        unfold reconcileNormal at heqn
        split at heqn
        · simp only [RNResult.mk.injEq] at heqn
          obtain ⟨-, -, hcalls, -, -⟩ := heqn
          rw [← hcalls] at h
          simp at h
        · next hfin =>
          simp only [Bool.not_eq_true'] at hfin
          simpa using hfin

end VMOp

namespace VMOp

theorem couTail_shape (env : Env) (vm : VM) (calls : List PCall) (n : Nat) (acq : Bool) :
    ((couTail env vm calls n acq).vm.status.phase = vm.status.phase ∨
     (couTail env vm calls n acq).vm.status.phase = Phase.created) ∧
    (couTail env vm calls n acq).vm.deletionTimestamp = vm.deletionTimestamp ∧
    (couTail env vm calls n acq).vm.finalizers = vm.finalizers := by
  unfold couTail
  split
  · exact ⟨Or.inl rfl, rfl, rfl⟩
  · split
    · exact ⟨Or.inr rfl, rfl, rfl⟩
    · exact ⟨Or.inr rfl, rfl, rfl⟩

theorem doCreate_shape (env : Env) (vm : VM) (n : Nat) :
    ((doCreate env vm n).vm.status.phase = vm.status.phase ∨
     (doCreate env vm n).vm.status.phase = Phase.created) ∧
    (doCreate env vm n).vm.deletionTimestamp = vm.deletionTimestamp ∧
    (doCreate env vm n).vm.finalizers = vm.finalizers := by
  unfold doCreate
  split
  · exact ⟨Or.inl rfl, rfl, rfl⟩
  · exact couTail_shape env vm _ n true

theorem cou_shape (env : Env) (vm : VM) (n maxC : Nat) :
    ((createOrUpdateVM env vm n maxC).vm.status.phase = vm.status.phase ∨
     (createOrUpdateVM env vm n maxC).vm.status.phase = Phase.creating ∨
     (createOrUpdateVM env vm n maxC).vm.status.phase = Phase.created) ∧
    (createOrUpdateVM env vm n maxC).vm.deletionTimestamp = vm.deletionTimestamp ∧
    (createOrUpdateVM env vm n maxC).vm.finalizers = vm.finalizers := by
  have hcore := coreEq_resolvePrereqs env vm
  unfold createOrUpdateVM
  split
  · next vm1 e heq =>
    rw [heq] at hcore
    obtain ⟨hst, hfins, hdt, -, -, -⟩ := hcore
    exact ⟨Or.inl (congrArg VMStatus.phase hst), hdt, hfins⟩
  · next vm1 rp heq =>
    rw [heq] at hcore
    obtain ⟨hst, hfins, hdt, -, -, -⟩ := hcore
    have hph : vm1.status.phase = vm.status.phase := congrArg VMStatus.phase hst
    split
    · exact ⟨Or.inl hph, hdt, hfins⟩
    · obtain ⟨hp, hd, hf⟩ := couTail_shape env vm1 [PCall.doesExist] n false
      refine ⟨?_, hd.trans hdt, hf.trans hfins⟩
      rcases hp with hp | hp
      · exact Or.inl (hp.trans hph)
      · exact Or.inr (Or.inr hp)
    · split
      · exact ⟨Or.inr (Or.inl rfl), hdt, hfins⟩
      · split
        · next p =>
          split
          · exact ⟨Or.inr (Or.inl rfl), hdt, hfins⟩
          · obtain ⟨hp, hd, hf⟩ := doCreate_shape env (setPhase vm1 Phase.creating) n
            exact ⟨Or.inr (hp.imp (fun h => h) (fun h => h)), hd.trans hdt, hf.trans hfins⟩
        · obtain ⟨hp, hd, hf⟩ := doCreate_shape env (setPhase vm1 Phase.creating) n
          exact ⟨Or.inr (hp.imp (fun h => h) (fun h => h)), hd.trans hdt, hf.trans hfins⟩

end VMOp

namespace VMOp

/-- Claim C8: for a successfully reconciled VirtualMachine the computed
requeue delay is a fixed 10 seconds exactly when the status phase is
Creating, or the power state is powered-on and the IP address is empty;
otherwise it is zero. -/
theorem c8_requeue_delay_iff (vm : VM) :
    requeueDelay vm =
      if vm.status.phase = Phase.creating ∨
         (vm.status.powerState = PowerState.poweredOn ∧ vm.status.vmIp = "")
      then 10 else 0 := by
  unfold requeueDelay
  by_cases h1 : vm.status.phase = Phase.creating <;>
    by_cases h2 : vm.status.vmIp = "" <;>
    by_cases h3 : vm.status.powerState = PowerState.poweredOn <;>
    simp [h1, h2, h3]

/-- Claim C1: a reconcile of a VirtualMachine that is not being deleted
and lacks the finalizer adds the finalizer and returns nil without any
provider call; and a provider Create can only happen in a pass where the
finalizer was already present at entry. -/
theorem c1_finalizer_before_create (env : Env) (vm : VM) (n maxC : Nat)
    (hpause : vm.annotations.contains pauseAnnotation = false)
    (hdt : vm.deletionTimestamp = none)
    (hfin : hasFinalizer vm = false) :
    (reconcile env vm n maxC).calls = [] ∧
    (reconcile env vm n maxC).err = none ∧
    hasFinalizer (reconcile env vm n maxC).vm = true ∧
    (∀ env2 vm2 n2 m2, PCall.create ∈ (reconcile env2 vm2 n2 m2).calls →
      hasFinalizer vm2 = true) := by
  have hp2 : pauseAnnotation ∉ vm.annotations := by simpa using hpause
  refine ⟨?_, ?_, ?_, fun env2 vm2 n2 m2 h => create_needs_finalizer env2 vm2 n2 m2 h⟩ <;>
  · unfold reconcile reconcileNormal
    rw [hdt]
    simp [hp2, hfin, hasFinalizer_addFinalizer]

/-- Claim C1 witness at a concrete input. -/
theorem c1_witness :
    vmNoFin.annotations.contains pauseAnnotation = false ∧
    vmNoFin.deletionTimestamp = none ∧
    hasFinalizer vmNoFin = false ∧
    ((reconcile baseEnv vmNoFin 0 1).calls = [] ∧
     (reconcile baseEnv vmNoFin 0 1).err = none ∧
     hasFinalizer (reconcile baseEnv vmNoFin 0 1).vm = true ∧
     (∀ env2 vm2 n2 m2, PCall.create ∈ (reconcile env2 vm2 n2 m2).calls →
       hasFinalizer vm2 = true)) :=
  ⟨rfl, rfl, rfl, c1_finalizer_before_create baseEnv vmNoFin 0 1 rfl rfl rfl⟩

/-- Claim C3: when the provider reports the VM absent and the in-flight
create count has reached the bound, createOrUpdateVM returns no error,
makes no Create or Update call, leaves the count unchanged without
acquiring a slot, and has set the phase to Creating. -/
theorem c3_backpressure_no_error (env : Env) (vm : VM) (n maxC : Nat)
    (hex : env.vmExists = Except.ok false)
    (hbound : maxC ≤ n)
    (hreach : PCall.doesExist ∈ (createOrUpdateVM env vm n maxC).calls) :
    (createOrUpdateVM env vm n maxC).err = none ∧
    (createOrUpdateVM env vm n maxC).calls = [PCall.doesExist] ∧
    (createOrUpdateVM env vm n maxC).n = n ∧
    (createOrUpdateVM env vm n maxC).acquired = false ∧
    (createOrUpdateVM env vm n maxC).vm.status.phase = Phase.creating := by
  unfold createOrUpdateVM at hreach ⊢
  split at hreach
  · simp at hreach
  · simp [hex, if_pos hbound, setPhase]

/-- Claim C3 witness at a concrete input. -/
theorem c3_witness :
    envAbsent.vmExists = Except.ok false ∧
    1 ≤ 1 ∧
    PCall.doesExist ∈ (createOrUpdateVM envAbsent baseVM 1 1).calls ∧
    ((createOrUpdateVM envAbsent baseVM 1 1).err = none ∧
     (createOrUpdateVM envAbsent baseVM 1 1).calls = [PCall.doesExist] ∧
     (createOrUpdateVM envAbsent baseVM 1 1).n = 1 ∧
     (createOrUpdateVM envAbsent baseVM 1 1).acquired = false ∧
     (createOrUpdateVM envAbsent baseVM 1 1).vm.status.phase = Phase.creating) :=
  ⟨rfl, Nat.le_refl 1, by decide,
    c3_backpressure_no_error envAbsent baseVM 1 1 rfl (Nat.le_refl 1) (by decide)⟩

end VMOp

namespace VMOp

theorem deleteVM_none (env : Env) (h : env.deleteRes = none) : deleteVM env = none := by
  unfold deleteVM
  rw [h]

theorem deleteVM_notFound (env : Env) (e : Err) (h : env.deleteRes = some e)
    (hnf : isNotFoundErr e = true) : deleteVM env = none := by
  unfold deleteVM
  rw [h]
  simp [hnf]

theorem deleteVM_fail (env : Env) (e : Err) (h : env.deleteRes = some e)
    (hnf : isNotFoundErr e = false) : deleteVM env = some e := by
  unfold deleteVM
  rw [h]
  simp [hnf]

theorem reconcile_delete_path (env : Env) (vm : VM) (n maxC : Nat) (t : Nat)
    (hpause : pauseAnnotation ∉ vm.annotations)
    (hdt : vm.deletionTimestamp = some t) :
    reconcile env vm n maxC =
      { vm := (reconcileDelete env vm).vm, err := (reconcileDelete env vm).err,
        calls := (reconcileDelete env vm).calls, requeueAfter := 0, n := n } := by
  unfold reconcile
  rw [hdt]
  simp [hpause]

theorem rd_success (env : Env) (vm : VM) (hfin : hasFinalizer vm = true)
    (hdel : deleteVM env = none) :
    reconcileDelete env vm =
      { vm := removeFinalizer (setPhase (setPhase vm Phase.deleting) Phase.deleted),
        err := none, calls := [PCall.delete], proberRemoved := true } := by
  unfold reconcileDelete
  rw [hdel]
  simp [hfin]

theorem rd_fail (env : Env) (vm : VM) (e : Err) (hfin : hasFinalizer vm = true)
    (hdel : deleteVM env = some e) :
    reconcileDelete env vm =
      { vm := setPhase vm Phase.deleting, err := some e, calls := [PCall.delete],
        proberRemoved := false } := by
  unfold reconcileDelete
  rw [hdel]
  simp [hfin]

/-- Claim C2: with the finalizer present and a non-zero deletion
timestamp, the reconcile runs the provider delete; NotFound counts as
success; on success the phase becomes Deleted and the finalizer is
removed; on any other delete error that error is returned, the finalizer
stays and the phase stays Deleting. -/
theorem c2_delete_semantics (env : Env) (vm : VM) (n maxC : Nat)
    (hpause : vm.annotations.contains pauseAnnotation = false)
    (hdt : vm.deletionTimestamp.isSome = true)
    (hfin : hasFinalizer vm = true) :
    (reconcile env vm n maxC).calls = [PCall.delete] ∧
    ((env.deleteRes = none ∨ ∃ e, env.deleteRes = some e ∧ isNotFoundErr e = true) →
      (reconcile env vm n maxC).err = none ∧
      (reconcile env vm n maxC).vm.status.phase = Phase.deleted ∧
      hasFinalizer (reconcile env vm n maxC).vm = false) ∧
    (∀ e, env.deleteRes = some e → isNotFoundErr e = false →
      (reconcile env vm n maxC).err = some e ∧
      (reconcile env vm n maxC).vm.status.phase = Phase.deleting ∧
      hasFinalizer (reconcile env vm n maxC).vm = true) := by
  obtain ⟨t, ht⟩ := Option.isSome_iff_exists.mp hdt
  have hp2 : pauseAnnotation ∉ vm.annotations := by simpa using hpause
  rw [reconcile_delete_path env vm n maxC t hp2 ht]
  refine ⟨?_, ?_, ?_⟩
  · rcases hdv : deleteVM env with - | e
    · rw [rd_success env vm hfin hdv]
    · rw [rd_fail env vm e hfin hdv]
  · rintro (hd | ⟨e, hd, hnf⟩)
    · rw [rd_success env vm hfin (deleteVM_none env hd)]
      refine ⟨rfl, rfl, ?_⟩
      have h1 : hasFinalizer (removeFinalizer (setPhase (setPhase vm Phase.deleting)
          Phase.deleted)) = false := hasFinalizer_removeFinalizer _
      simpa using h1
    · rw [rd_success env vm hfin (deleteVM_notFound env e hd hnf)]
      refine ⟨rfl, rfl, ?_⟩
      have h1 : hasFinalizer (removeFinalizer (setPhase (setPhase vm Phase.deleting)
          Phase.deleted)) = false := hasFinalizer_removeFinalizer _
      simpa using h1
  · intro e hd hnf
    rw [rd_fail env vm e hfin (deleteVM_fail env e hd hnf)]
    exact ⟨rfl, rfl, hfin⟩

/-- Claim C2 witness at a concrete input (successful provider delete). -/
theorem c2_witness :
    vmDel.annotations.contains pauseAnnotation = false ∧
    vmDel.deletionTimestamp.isSome = true ∧
    hasFinalizer vmDel = true ∧
    ((reconcile baseEnv vmDel 0 1).calls = [PCall.delete] ∧
     ((baseEnv.deleteRes = none ∨
        ∃ e, baseEnv.deleteRes = some e ∧ isNotFoundErr e = true) →
       (reconcile baseEnv vmDel 0 1).err = none ∧
       (reconcile baseEnv vmDel 0 1).vm.status.phase = Phase.deleted ∧
       hasFinalizer (reconcile baseEnv vmDel 0 1).vm = false) ∧
     (∀ e, baseEnv.deleteRes = some e → isNotFoundErr e = false →
       (reconcile baseEnv vmDel 0 1).err = some e ∧
       (reconcile baseEnv vmDel 0 1).vm.status.phase = Phase.deleting ∧
       hasFinalizer (reconcile baseEnv vmDel 0 1).vm = true)) :=
  ⟨rfl, rfl, rfl, c2_delete_semantics baseEnv vmDel 0 1 rfl rfl rfl⟩

end VMOp

namespace VMOp

theorem resolvePrereqs_classErr (env : Env) (vm vm1 : VM) (e : Err)
    (h : getVMClass env vm = (vm1, Except.error e)) :
    resolvePrereqs env vm = (vm1, Except.error e) := by
  unfold resolvePrereqs
  rw [h]

theorem cou_resolveErr (env : Env) (vm vm1 : VM) (e : Err) (n maxC : Nat)
    (h : resolvePrereqs env vm = (vm1, Except.error e)) :
    createOrUpdateVM env vm n maxC =
      { vm := vm1, err := some e, calls := [], n := n, acquired := false } := by
  unfold createOrUpdateVM
  rw [h]

theorem getVMClass_noBinding (env : Env) (vm : VM) (l : List Binding)
    (hfss : env.vmServiceFSS = true)
    (hl : env.classBindingList = Except.ok l)
    (hnm : ∀ b ∈ l,
      (b.kind == "VirtualMachineClass" && b.name == vm.spec.className) = false) :
    ∃ e r, getVMClass env vm = (markFalse r vm, Except.error e) := by
  unfold getVMClass
  cases hc : env.classes vm.spec.className with
  | error e => exact ⟨e, "VirtualMachineClassNotFound", rfl⟩
  | ok cls =>
    have hany : l.any
        (fun b => b.kind == "VirtualMachineClass" && b.name == vm.spec.className) = false := by
      simp only [List.any_eq_false]
      intro x hx
      simp [hnm x hx]
    refine ⟨Err.classBindingMissing, "VirtualMachineClassBindingNotFound", ?_⟩
    simp [hfss, hl, hany]

/-- Claim C5: with class-binding enforcement enabled and no matching
ClassBinding in the namespace, createOrUpdateVM fails with the
PrereqReady condition marked false and without any provider call. -/
theorem c5_class_binding_enforced (env : Env) (vm : VM) (n maxC : Nat) (l : List Binding)
    (hfss : env.vmServiceFSS = true)
    (hl : env.classBindingList = Except.ok l)
    (hnm : ∀ b ∈ l,
      (b.kind == "VirtualMachineClass" && b.name == vm.spec.className) = false) :
    ((createOrUpdateVM env vm n maxC).err).isSome = true ∧
    (createOrUpdateVM env vm n maxC).calls = [] ∧
    ∃ r, (createOrUpdateVM env vm n maxC).vm.prereqReady =
      some { status := false, reason := r } := by
  obtain ⟨e, r, hcls⟩ := getVMClass_noBinding env vm l hfss hl hnm
  rw [cou_resolveErr env vm (markFalse r vm) e n maxC
    (resolvePrereqs_classErr env vm (markFalse r vm) e hcls)]
  exact ⟨rfl, rfl, r, rfl⟩

/-- Claim C5 witness at a concrete input. -/
theorem c5_witness :
    envNoBinding.vmServiceFSS = true ∧
    envNoBinding.classBindingList = Except.ok [] ∧
    (∀ b ∈ ([] : List Binding),
      (b.kind == "VirtualMachineClass" && b.name == baseVM.spec.className) = false) ∧
    (((createOrUpdateVM envNoBinding baseVM 0 1).err).isSome = true ∧
     (createOrUpdateVM envNoBinding baseVM 0 1).calls = [] ∧
     ∃ r, (createOrUpdateVM envNoBinding baseVM 0 1).vm.prereqReady =
       some { status := false, reason := r }) :=
  ⟨rfl, rfl, by simp,
    c5_class_binding_enforced envNoBinding baseVM 0 1 [] rfl rfl (by simp)⟩

theorem getVMMetadata_bothSet (env : Env) (vm : VM) (md : VMMeta)
    (hmd : vm.spec.vmMetadata = some md)
    (hcm : md.configMapName ≠ "") (hsec : md.secretName ≠ "") :
    getVMMetadata env vm = Except.error Err.metadataBothSet := by
  unfold getVMMetadata
  rw [hmd]
  simp [hcm, hsec]

theorem resolvePrereqs_bothSet (env : Env) (vm : VM) (md : VMMeta)
    (hmd : vm.spec.vmMetadata = some md)
    (hcm : md.configMapName ≠ "") (hsec : md.secretName ≠ "") :
    ∃ vm1 e, resolvePrereqs env vm = (vm1, Except.error e) := by
  unfold resolvePrereqs
  split
  · next vm1 e heq => exact ⟨vm1, e, rfl⟩
  · next vm1 cls heq =>
    split
    · next vm3 e heq2 => exact ⟨vm3, e, rfl⟩
    · next vm3 x heq2 =>
      have h1 : coreEq vm1 vm := by
        have h := coreEq_getVMClass env vm
        rw [heq] at h
        exact h
      have hcore : coreEq vm3 vm := by
        have h4 := coreEq_getImage env (reconcileInstanceStorageSpec env vm1 cls)
        rw [heq2] at h4
        exact coreEq_trans h4 (coreEq_trans (coreEq_riss env vm1 cls) h1)
      have hmd3 : vm3.spec.vmMetadata = some md := by
        obtain ⟨-, -, -, -, h5, -⟩ := hcore
        rw [h5, hmd]
      rw [getVMMetadata_bothSet env vm3 md hmd3 hcm hsec]
      exact ⟨vm3, Err.metadataBothSet, rfl⟩

/-- Claim C6: a VM metadata reference with both config-map and secret
names set makes getVMMetadata fail with the dedicated error without
consulting the store, and createOrUpdateVM errors with no provider
call. -/
theorem c6_metadata_mutually_exclusive (env env2 : Env) (vm : VM) (n maxC : Nat)
    (md : VMMeta)
    (hmd : vm.spec.vmMetadata = some md)
    (hcm : md.configMapName ≠ "") (hsec : md.secretName ≠ "") :
    getVMMetadata env vm = Except.error Err.metadataBothSet ∧
    getVMMetadata env vm = getVMMetadata env2 vm ∧
    (createOrUpdateVM env vm n maxC).calls = [] ∧
    ((createOrUpdateVM env vm n maxC).err).isSome = true := by
  obtain ⟨vm1, e, hres⟩ := resolvePrereqs_bothSet env vm md hmd hcm hsec
  rw [cou_resolveErr env vm vm1 e n maxC hres]
  refine ⟨getVMMetadata_bothSet env vm md hmd hcm hsec, ?_, rfl, rfl⟩
  rw [getVMMetadata_bothSet env vm md hmd hcm hsec,
    getVMMetadata_bothSet env2 vm md hmd hcm hsec]

/-- Claim C6 witness at a concrete input. -/
theorem c6_witness :
    vmBothMeta.spec.vmMetadata =
      some { configMapName := "cm", secretName := "sec", transport := "t" } ∧
    ("cm" : String) ≠ "" ∧ ("sec" : String) ≠ "" ∧
    (getVMMetadata baseEnv vmBothMeta = Except.error Err.metadataBothSet ∧
     getVMMetadata baseEnv vmBothMeta = getVMMetadata envAbsent vmBothMeta ∧
     (createOrUpdateVM baseEnv vmBothMeta 0 1).calls = [] ∧
     ((createOrUpdateVM baseEnv vmBothMeta 0 1).err).isSome = true) :=
  ⟨rfl, by decide, by decide,
    c6_metadata_mutually_exclusive baseEnv envAbsent vmBothMeta 0 1
      { configMapName := "cm", secretName := "sec", transport := "t" }
      rfl (by decide) (by decide)⟩

/-- Claim C10: when the provider reports the VM absent, a create slot is
available, and the referenced resource policy is being deleted,
createOrUpdateVM returns the dedicated error and never calls the
provider Create. -/
theorem c10_rp_deleting_blocks_create (env : Env) (vm : VM) (n maxC : Nat)
    (p : ResourcePolicy)
    (hex : env.vmExists = Except.ok false)
    (hroom : n < maxC)
    (hname : vm.spec.resourcePolicyName ≠ "")
    (hrp : env.resourcePolicies vm.spec.resourcePolicyName = Except.ok p)
    (hready : env.rpReady = Except.ok true)
    (hdel : p.deletionTimestamp.isSome = true)
    (hreach : PCall.doesExist ∈ (createOrUpdateVM env vm n maxC).calls) :
    (createOrUpdateVM env vm n maxC).err = some Err.rpDeleting ∧
    (createOrUpdateVM env vm n maxC).calls = [PCall.doesExist] := by
  unfold createOrUpdateVM at hreach ⊢
  split at hreach
  · simp at hreach
  · next vm1 rp heq =>
    have hrp1 : getResourcePolicy env vm1 = Except.ok rp :=
      resolvePrereqs_ok_rp env vm vm1 rp heq
    have hcore := coreEq_resolvePrereqs env vm
    rw [heq] at hcore
    obtain ⟨-, -, -, -, -, hnm⟩ := hcore
    have hrp2 : rp = some p := by
      unfold getResourcePolicy at hrp1
      rw [hnm, if_neg hname, hrp, hready] at hrp1
      simp at hrp1
      exact hrp1.symm
    subst hrp2
    simp [hex, Nat.not_le.mpr hroom, hdel]

/-- Claim C10 witness at a concrete input. -/
theorem c10_witness :
    envRPDeleting.vmExists = Except.ok false ∧
    0 < 1 ∧
    vmWithRP.spec.resourcePolicyName ≠ "" ∧
    envRPDeleting.resourcePolicies vmWithRP.spec.resourcePolicyName =
      Except.ok rpDeleting0 ∧
    envRPDeleting.rpReady = Except.ok true ∧
    rpDeleting0.deletionTimestamp.isSome = true ∧
    PCall.doesExist ∈ (createOrUpdateVM envRPDeleting vmWithRP 0 1).calls ∧
    ((createOrUpdateVM envRPDeleting vmWithRP 0 1).err = some Err.rpDeleting ∧
     (createOrUpdateVM envRPDeleting vmWithRP 0 1).calls = [PCall.doesExist]) :=
  ⟨rfl, by decide, by decide, rfl, rfl, rfl, by decide,
    c10_rp_deleting_blocks_create envRPDeleting vmWithRP 0 1 rpDeleting0
      rfl (by decide) (by decide) rfl rfl rfl (by decide)⟩

end VMOp

namespace VMOp

theorem rd_nofin (env : Env) (vm : VM) (hf : hasFinalizer vm = false) :
    reconcileDelete env vm =
      { vm := vm, err := none, calls := [], proberRemoved := true } := by
  unfold reconcileDelete
  simp [hf]

theorem phaseIdx_le_four (p : Phase) : phaseIdx p ≤ 4 := by
  cases p <;> simp [phaseIdx]

theorem rn_shape (env : Env) (vm : VM) (n maxC : Nat) :
    ((reconcileNormal env vm n maxC).vm.status.phase = vm.status.phase ∨
     (reconcileNormal env vm n maxC).vm.status.phase = Phase.creating ∨
     (reconcileNormal env vm n maxC).vm.status.phase = Phase.created) ∧
    (reconcileNormal env vm n maxC).vm.deletionTimestamp = vm.deletionTimestamp := by
  unfold reconcileNormal
  split
  · exact ⟨Or.inl rfl, rfl⟩
  · obtain ⟨hp, hd, -⟩ := cou_shape env vm n maxC
    split
    · next vm1 e calls n1 x heq =>
      rw [heq] at hp hd
      exact ⟨hp, hd⟩
    · next vm1 calls n1 x heq =>
      rw [heq] at hp hd
      exact ⟨hp, hd⟩

/-- Claim C4 counterexample: starting from a VM whose phase has reached
Created, a reconcile in which the provider reports the VM absent moves
the phase back to Creating, so the phase order is violated by a step
that is not a retry of Creating. -/
theorem c4_counterexample :
    (reconcile baseEnv baseVM 0 0).vm.status.phase = Phase.created ∧
    (reconcile envAbsent (reconcile baseEnv baseVM 0 0).vm 0 0).vm.status.phase =
      Phase.creating ∧
    (reconcile envAbsent (reconcile baseEnv baseVM 0 0).vm 0 0).err = none ∧
    phaseIdx Phase.creating < phaseIdx Phase.created := by decide

/-- Claim C4 (amended): a reconcile step never moves the phase backward
except by re-entering Creating (which can also happen from Created when
the provider reports the VM absent); the deletion timestamp is
unchanged, and the stated reachability invariants are preserved. -/
theorem c4_amended_phase_monotone (env : Env) (vm : VM) (n maxC : Nat)
    (h1 : vm.deletionTimestamp = none → phaseIdx vm.status.phase ≤ 2)
    (h2 : vm.status.phase = Phase.deleted → hasFinalizer vm = false) :
    (phaseIdx vm.status.phase ≤ phaseIdx (reconcile env vm n maxC).vm.status.phase ∨
      (reconcile env vm n maxC).vm.status.phase = Phase.creating) ∧
    (reconcile env vm n maxC).vm.deletionTimestamp = vm.deletionTimestamp ∧
    ((reconcile env vm n maxC).vm.deletionTimestamp = none →
      phaseIdx (reconcile env vm n maxC).vm.status.phase ≤ 2) ∧
    ((reconcile env vm n maxC).vm.status.phase = Phase.deleted →
      hasFinalizer (reconcile env vm n maxC).vm = false) := by
  unfold reconcile
  split
  · exact ⟨Or.inl (Nat.le_refl _), rfl, h1, h2⟩
  · split
    · next t ht =>
      by_cases hf : hasFinalizer vm = true
      · rcases hdv : deleteVM env with - | e
        · rw [rd_success env vm hf hdv]
          refine ⟨Or.inl (phaseIdx_le_four _), rfl, ?_, ?_⟩
          · intro hh
            have hh2 : vm.deletionTimestamp = none := hh
            rw [ht] at hh2
            exact absurd hh2 (by simp)
          · intro _
            exact hasFinalizer_removeFinalizer _
        · rw [rd_fail env vm e hf hdv]
          refine ⟨?_, rfl, ?_, ?_⟩
          · cases hp : vm.status.phase
            · exact Or.inl (by simp [phaseIdx, setPhase])
            · exact Or.inl (by simp [phaseIdx, setPhase])
            · exact Or.inl (by simp [phaseIdx, setPhase])
            · exact Or.inl (by simp [phaseIdx, setPhase])
            · exact absurd (h2 hp) (by simp [hf])
          · intro hh
            have hh2 : vm.deletionTimestamp = none := hh
            rw [ht] at hh2
            exact absurd hh2 (by simp)
          · intro hh
            have hh2 : Phase.deleting = Phase.deleted := hh
            exact absurd hh2 (by simp)
      · have hf2 : hasFinalizer vm = false := by
          cases hv : hasFinalizer vm
          · rfl
          · exact absurd hv hf
        rw [rd_nofin env vm hf2]
        exact ⟨Or.inl (Nat.le_refl _), rfl, h1, h2⟩
    · next ht =>
      have hidx : phaseIdx vm.status.phase ≤ 2 := h1 ht
      obtain ⟨hp, hd⟩ := rn_shape env vm n maxC
      split
      · next vm1 e calls n1 x heq =>
        rw [heq] at hp hd
        refine ⟨?_, hd, ?_, ?_⟩
        · rcases hp with hp | hp | hp
          · exact Or.inl (le_of_eq (congrArg phaseIdx hp).symm)
          · exact Or.inr hp
          · rw [hp]
            exact Or.inl (le_trans hidx (by simp [phaseIdx]))
        · intro _
          rcases hp with hp | hp | hp <;> rw [hp] <;> simp [phaseIdx]
          exact hidx
        · intro hh
          rcases hp with hp | hp | hp <;> rw [hp] at hh
          · rw [hh] at hidx
            simp [phaseIdx] at hidx
          · exact absurd hh (by simp)
          · exact absurd hh (by simp)
      · next vm1 calls n1 x heq =>
        rw [heq] at hp hd
        refine ⟨?_, hd, ?_, ?_⟩
        · rcases hp with hp | hp | hp
          · exact Or.inl (le_of_eq (congrArg phaseIdx hp).symm)
          · exact Or.inr hp
          · rw [hp]
            exact Or.inl (le_trans hidx (by simp [phaseIdx]))
        · intro _
          rcases hp with hp | hp | hp <;> rw [hp] <;> simp [phaseIdx]
          exact hidx
        · intro hh
          rcases hp with hp | hp | hp <;> rw [hp] at hh
          · rw [hh] at hidx
            simp [phaseIdx] at hidx
          · exact absurd hh (by simp)
          · exact absurd hh (by simp)

/-- Claim C4 amended witness at a concrete input. -/
theorem c4_amended_witness :
    (baseVM.deletionTimestamp = none → phaseIdx baseVM.status.phase ≤ 2) ∧
    (baseVM.status.phase = Phase.deleted → hasFinalizer baseVM = false) ∧
    ((phaseIdx baseVM.status.phase ≤
        phaseIdx (reconcile baseEnv baseVM 0 1).vm.status.phase ∨
      (reconcile baseEnv baseVM 0 1).vm.status.phase = Phase.creating) ∧
     (reconcile baseEnv baseVM 0 1).vm.deletionTimestamp = baseVM.deletionTimestamp ∧
     ((reconcile baseEnv baseVM 0 1).vm.deletionTimestamp = none →
       phaseIdx (reconcile baseEnv baseVM 0 1).vm.status.phase ≤ 2) ∧
     ((reconcile baseEnv baseVM 0 1).vm.status.phase = Phase.deleted →
       hasFinalizer (reconcile baseEnv baseVM 0 1).vm = false)) :=
  ⟨by decide, by decide,
    c4_amended_phase_monotone baseEnv baseVM 0 1 (by decide) (by decide)⟩

end VMOp

namespace VMOp

/-- Claim C7 counterexample: with VM-service binding enforcement
disabled, an image whose ContentLibraryProvider has no ContentSource
owner reference still resolves successfully, so image resolution does
not fail for every missing ContentSource owner-reference link. -/
theorem c7_counterexample :
    clpNoCS.ownerRefs.find? (fun r => r.kind == "ContentSource") = none ∧
    envNoCSOwner.vmServiceFSS = false ∧
    envNoCSOwner.clProviders "clp" = Except.ok clpNoCS ∧
    (getImageAndContentLibraryUUID envNoCSOwner baseVM).2 =
      Except.ok (img0, "uuid-1") :=
  ⟨rfl, rfl, rfl, rfl⟩

/-- Claim C7 (amended): image resolution fetches the image by name and
walks its owner chain to the ContentLibraryProvider, failing when that
link is missing; only when VM-service binding enforcement is enabled
does the walk continue to the ContentSource, failing when that link is
missing; with enforcement disabled resolution succeeds without the
ContentSource walk. -/
theorem c7_amended_owner_chain (env : Env) (vm : VM) (img : VMImage) (clp : CLProvider)
    (himg : env.images vm.spec.imageName = Except.ok img) :
    (img.ownerRefs.find? (fun r => r.kind == "ContentLibraryProvider") = none →
      (getImageAndContentLibraryUUID env vm).2 = Except.error Err.noCLProviderOwner) ∧
    (∀ ref, img.ownerRefs.find? (fun r => r.kind == "ContentLibraryProvider") = some ref →
      env.clProviders ref.name = Except.ok clp →
      clp.ownerRefs.find? (fun r => r.kind == "ContentSource") = none →
      env.vmServiceFSS = true →
      (getImageAndContentLibraryUUID env vm).2 = Except.error Err.noContentSourceOwner) ∧
    (∀ ref, img.ownerRefs.find? (fun r => r.kind == "ContentLibraryProvider") = some ref →
      env.clProviders ref.name = Except.ok clp →
      env.vmServiceFSS = false →
      (getImageAndContentLibraryUUID env vm).2 = Except.ok (img, clp.uuid)) := by
  refine ⟨?_, ?_, ?_⟩
  · intro hnone
    unfold getImageAndContentLibraryUUID getContentLibraryProviderFromImage
    simp only [himg, hnone]
  · intro ref h1 h2 h3 h4
    unfold getImageAndContentLibraryUUID getContentLibraryProviderFromImage
      getContentSourceFromCLProvider
    simp only [himg, h1, h2, h3, h4, if_true]
  · intro ref h1 h2 h3
    unfold getImageAndContentLibraryUUID getContentLibraryProviderFromImage
    simp only [himg, h1, h2, h3, Bool.false_eq_true, if_false]

/-- Claim C7 amended witness at a concrete input. -/
theorem c7_witness :
    envNoCSOwnerFSS.images baseVM.spec.imageName = Except.ok img0 ∧
    ((img0.ownerRefs.find? (fun r => r.kind == "ContentLibraryProvider") = none →
       (getImageAndContentLibraryUUID envNoCSOwnerFSS baseVM).2 =
         Except.error Err.noCLProviderOwner) ∧
     (∀ ref, img0.ownerRefs.find? (fun r => r.kind == "ContentLibraryProvider") =
         some ref →
       envNoCSOwnerFSS.clProviders ref.name = Except.ok clpNoCS →
       clpNoCS.ownerRefs.find? (fun r => r.kind == "ContentSource") = none →
       envNoCSOwnerFSS.vmServiceFSS = true →
       (getImageAndContentLibraryUUID envNoCSOwnerFSS baseVM).2 =
         Except.error Err.noContentSourceOwner) ∧
     (∀ ref, img0.ownerRefs.find? (fun r => r.kind == "ContentLibraryProvider") =
         some ref →
       envNoCSOwnerFSS.clProviders ref.name = Except.ok clpNoCS →
       envNoCSOwnerFSS.vmServiceFSS = false →
       (getImageAndContentLibraryUUID envNoCSOwnerFSS baseVM).2 =
         Except.ok (img0, clpNoCS.uuid))) :=
  ⟨rfl, c7_amended_owner_chain envNoCSOwnerFSS baseVM img0 clpNoCS rfl⟩

end VMOp

namespace VMSvc

theorem foldl_epStep_allFail (svcPorts : List SvcPort) (vms : List SvcVM)
    (hfail : ∀ v ∈ vms,
      v.deleted = false ∧ v.vmIp ≠ "" ∧ v.host ≠ "" ∧ runProbe v ≠ none)
    (acc : List EndpointSubset × Nat) :
    vms.foldl (epStep svcPorts) acc = (acc.1, acc.2 + vms.length) := by
  induction vms generalizing acc with
  | nil => simp
  | cons v vs ih =>
    obtain ⟨hd, hip, hhost, hpr⟩ := hfail v (List.mem_cons_self v vs)
    have hstep : epStep svcPorts acc v = (acc.1, acc.2 + 1) := by
      unfold epStep
      rw [hd]
      simp only [Bool.false_eq_true, if_false]
      rw [if_neg hip, if_neg hhost]
      rcases hpo : runProbe v with - | msg
      · exact absurd hpo hpr
      · rfl
    rw [List.foldl_cons, hstep, ih (fun u hu => hfail u (List.mem_cons_of_mem v hu))]
    simp only [Prod.mk.injEq, List.length_cons, true_and]
    omega

theorem computeSubsets_allFail (svcPorts : List SvcPort) (vms : List SvcVM)
    (hfail : ∀ v ∈ vms,
      v.deleted = false ∧ v.vmIp ≠ "" ∧ v.host ≠ "" ∧ runProbe v ≠ none) :
    computeSubsets svcPorts vms = ([], vms.length) := by
  unfold computeSubsets
  rw [foldl_epStep_allFail svcPorts vms hfail ([], 0)]
  simp

/-- Claim C9 counterexample: a VirtualMachineService selecting one VM
whose readiness probe fails, with an existing non-empty Endpoints
object: the reconcile returns the 10-second requeue signal but also
updates the Endpoints object, clearing its subsets, rather than leaving
it unchanged. -/
theorem c9_counterexample :
    envC9.vms = Except.ok [vmProbeFail] ∧
    runProbe vmProbeFail ≠ none ∧
    envC9.currentEndpoints = Except.ok curC9 ∧
    curC9.subsets ≠ [] ∧
    (updateEndpoints envC9 portsC9).1 = SvcResult.requeueAfter 10 ∧
    (updateEndpoints envC9 portsC9).2 =
      some (EpWrite.update { resourceVersion := "", subsets := [] }) :=
  ⟨rfl, by decide, rfl, by decide, by decide, by decide⟩

/-- Claim C9 (amended): when the selected VM list is non-empty and every
candidate VM fails its readiness probe, the endpoints reconcile returns
a fixed 10-second delayed-requeue result (not a plain error); the
existing Endpoints object is left unwritten exactly when its subsets
already equal the recomputed (empty) subsets, and is otherwise updated
before the requeue signal is returned. -/
theorem c9_amended_requeue (env : SvcEnv) (svcPorts : List SvcPort) (vms : List SvcVM)
    (cur : Endpoints)
    (hvms : env.vms = Except.ok vms) (hne : vms ≠ [])
    (hfail : ∀ v ∈ vms,
      v.deleted = false ∧ v.vmIp ≠ "" ∧ v.host ≠ "" ∧ runProbe v ≠ none)
    (hcur : env.currentEndpoints = Except.ok cur)
    (hcr : env.createRes = none) (hup : env.updateRes = none) :
    (updateEndpoints env svcPorts).1 = SvcResult.requeueAfter 10 ∧
    ((updateEndpoints env svcPorts).2 = none ↔ cur.subsets = []) := by
  have hcs := computeSubsets_allFail svcPorts vms hfail
  have hlen : 0 < vms.length := List.length_pos.mpr hne
  unfold updateEndpoints
  simp only [hvms, hcs, if_pos (And.intro hlen rfl)]
  unfold endpointsTail
  simp only [hcur]
  by_cases hsub : cur.subsets = []
  · simp [hsub, hne]
  · rw [if_neg hsub]
    unfold writeEndpoints
    by_cases hrv : cur.resourceVersion = ""
    · rw [if_pos hrv, hcr]
      simp [hsub, hne]
    · rw [if_neg hrv, hup]
      simp [hsub, hne]

/-- Claim C9 amended witness at a concrete input. -/
theorem c9_witness :
    envC9.vms = Except.ok [vmProbeFail] ∧
    [vmProbeFail] ≠ ([] : List SvcVM) ∧
    (∀ v ∈ [vmProbeFail],
      v.deleted = false ∧ v.vmIp ≠ "" ∧ v.host ≠ "" ∧ runProbe v ≠ none) ∧
    envC9.currentEndpoints = Except.ok curC9 ∧
    envC9.createRes = none ∧
    envC9.updateRes = none ∧
    ((updateEndpoints envC9 portsC9).1 = SvcResult.requeueAfter 10 ∧
     ((updateEndpoints envC9 portsC9).2 = none ↔ curC9.subsets = [])) :=
  ⟨rfl, by decide, by decide, rfl, rfl, rfl,
    c9_amended_requeue envC9 portsC9 [vmProbeFail] curC9 rfl (by decide) (by decide)
      rfl rfl rfl⟩

end VMSvc
